import Mathlib

/-!
Verification of the ad-wall-back Express backend (src/ad-wall-backend/app.js).

The program stores a list of advertisement records in a JSON file
(ads.json) and exposes CRUD routes over it, plus a multipart video-upload
route.  We give a shallow embedding:

* JSON values are the inductive type Value.  Numbers are modelled as
  integers (the program only ever creates integer counters); floating
  point and NaN are outside the model.  JavaScript objects are modelled
  as association lists in which a later entry for a key shadows an
  earlier one, so that building an object literal, spreading and property
  assignment are all list concatenation; lookupObj returns the last
  binding, matching JavaScript semantics for duplicate keys.
* The ads file is modelled at the granularity of parse outcomes:
  FileState.missing is an absent file, FileState.empty a zero-length
  file (JSON.parse of the empty string throws), FileState.corrupt any
  other unparseable text, and FileState.content v a file whose text is
  the JSON serialization of v.  Writing JSON.stringify l and parsing it
  back yields l again; this round-trip property of the JSON library is
  the boundary of the model.
* A World is the file state together with a writeFails flag that models
  an fs.writeFileSync call raising an I/O error; saveAds catches such an
  error and logs it, which we model as leaving the file unchanged.
* Exceptions inside a route handler (for example calling an array method
  on a non-array, or reading a property of null) are modelled with
  Except; the surrounding try/catch of each route turns an error into an
  HTTP 500 response.
-/

set_option autoImplicit false

namespace AdWall

/-- JSON-like runtime values.  Objects are association lists with
last-binding-wins lookup. -/
inductive Value where
  | num  : Int → Value
  | str  : String → Value
  | bool : Bool → Value
  | null : Value
  | arr  : List Value → Value
  | obj  : List (String × Value) → Value

/-- Lookup of a key in an object, the LAST binding wins (JavaScript
object literals and spreads let later entries shadow earlier ones). -/
def lookupObj (o : List (String × Value)) (k : String) : Option Value :=
  o.foldl (fun acc p => if p.1 = k then some p.2 else acc) none

/-- Property read on an arbitrary value, ignoring the TypeError case:
objects yield the binding of the key, every non-object yields undefined
(modelled as none).  Reading a property of null throws and is handled by
getField below. -/
def vLookup (v : Value) (k : String) : Option Value :=
  match v with
  | .obj o => lookupObj o k
  | _ => none

/-- JavaScript truthiness of a value: 0, the empty string, false and
null are falsy, everything else (including empty arrays and objects) is
truthy. -/
def truthy : Value → Bool
  | .num n => n != 0
  | .str s => s != ""
  | .bool b => b
  | .null => false
  | .arr _ => true
  | .obj _ => true

/-- Whether a value is an object. -/
def isObjV : Value → Bool
  | .obj _ => true
  | _ => false

/-- Whether a value is an array. -/
def isArrV : Value → Bool
  | .arr _ => true
  | _ => false

mutual
/-- JavaScript ToString on the fragment of values we model: integers
print in decimal, booleans as true and false, null as null, arrays join
the strings of their elements with commas (null elements print as the
empty string) and plain objects print as the generic object tag. -/
def toStrV : Value → String
  | .num n => toString n
  | .str s => s
  | .bool b => cond b "true" "false"
  | .null => "null"
  | .arr l => String.intercalate "," (toStrList l)
  | .obj _ => "[object Object]"

/-- Strings of the elements of an array, as used by Array.prototype.join:
null prints as the empty string. -/
def toStrList : List Value → List String
  | [] => []
  | .null :: t => "" :: toStrList t
  | v :: t => toStrV v :: toStrList t
end

/-- JavaScript ToPrimitive with the default hint on our value fragment:
arrays and objects convert to their string, primitives stay. -/
def toPrim (v : Value) : Value :=
  match v with
  | .arr _ => .str (toStrV v)
  | .obj _ => .str (toStrV v)
  | p => p

/-- JavaScript ToNumber on the primitives that can reach the numeric
branch of addition: booleans become 0 or 1, null becomes 0. -/
def toNumPrim : Value → Int
  | .num n => n
  | .bool b => cond b 1 0
  | _ => 0

/-- JavaScript binary + on our value fragment: after ToPrimitive, if
either side is a string the result is string concatenation, otherwise
numeric addition. -/
def jsAdd (a b : Value) : Value :=
  match toPrim a, toPrim b with
  | .str s, p => .str (s ++ toStrV p)
  | p, .str s => .str (toStrV p ++ s)
  | p, q => .num (toNumPrim p + toNumPrim q)

/-- The ads file, abstracted to the outcome of reading and JSON-parsing
its text: absent, zero-length (JSON.parse throws on the empty string),
otherwise-unparseable, or holding the serialization of a JSON value. -/
inductive FileState where
  | missing : FileState
  | empty : FileState
  | corrupt : FileState
  | content : Value → FileState

/-- The mutable state a request handler sees: the ads file plus a flag
modelling whether fs.writeFileSync raises an I/O error. -/
structure World where
  file : FileState
  writeFails : Bool

/-- The parts of an HTTP response the routes produce: the status code,
the success flag of the JSON body, and its data payload when present. -/
structure Response where
  status : Nat
  success : Bool
  data : Option Value

/-- Reading a property of a value, with the TypeError that JavaScript
raises when the base is null; every other non-object base yields
undefined (none). -/
def getField (v : Value) (k : String) : Except Unit (Option Value) :=
  match v with
  | .null => .error ()
  | .obj o => .ok (lookupObj o k)
  | _ => .ok none

/-- The findIndex predicate of the PUT, DELETE and PATCH routes:
strict equality of the id property with the (string) route parameter.
A non-string id property never equals the string parameter. -/
def idMatches (param : String) (ad : Value) : Except Unit Bool := do
  let idv ← getField ad "id"
  pure (match idv with
        | some (.str s) => s == param
        | _ => false)

/-- The filter predicate of the DELETE route: ad.id strictly different
from the route parameter. -/
def notIdMatches (param : String) (ad : Value) : Except Unit Bool := do
  let idv ← getField ad "id"
  pure (match idv with
        | some (.str s) => s != param
        | _ => true)

/-- Array.prototype.findIndex with an effectful predicate; none models
the -1 of JavaScript. -/
def findIndexM (p : Value → Except Unit Bool) : List Value → Except Unit (Option Nat)
  | [] => .ok none
  | a :: t => do
    if (← p a) then
      pure (some 0)
    else
      pure ((← findIndexM p t).map (· + 1))

/-- Array.prototype.filter with an effectful predicate. -/
def filterM (p : Value → Except Unit Bool) : List Value → Except Unit (List Value)
  | [] => .ok []
  | a :: t => do
    let b ← p a
    let r ← filterM p t
    pure (if b then a :: r else r)

/-- Calling an array method (push, findIndex, filter) on a non-array
value raises a TypeError; on an array it exposes the element list. -/
def asArray (v : Value) : Except Unit (List Value) :=
  match v with
  | .arr l => .ok l
  | _ => .error ()

/-- The getAds helper of app.js: if the file exists its text is parsed
and the parsed value returned, whatever it is; a missing file, and any
read or parse failure caught by the try/catch (empty or corrupt text),
yield the empty array. -/
def getAds (f : FileState) : Value :=
  match f with
  | .content v => v
  | _ => .arr []

/-- The saveAds helper of app.js: write the JSON serialization of the
whole list over the ads file; a write error is caught and only logged,
leaving the file as it was. -/
def saveAds (w : World) (ads : List Value) : World :=
  if w.writeFails then w else { file := .content (.arr ads), writeFails := w.writeFails }

/-- The 500 response each route produces in its catch block. -/
def err500 : Response := { status := 500, success := false, data := none }

/-- The 404 response of the PUT, DELETE and PATCH routes. -/
def notFound : Response := { status := 404, success := false, data := none }

/-- Route GET /api/ads: respond 200 with the full list read by getAds. -/
def listAdsRoute (w : World) : Response × World :=
  ({ status := 200, success := true, data := some (getAds w.file) }, w)

/-- The new-ad object literal of POST /api/ads in app.js: an id from
Date.now (passed in as nowId), then the spread of the request body, then
clicked set to 0 and videos set to the body videos when truthy and to
the empty array otherwise.  Later entries shadow earlier ones. -/
def mkNewAd (nowId : String) (body : List (String × Value)) : Value :=
  .obj ([("id", .str nowId)] ++ body ++
        [("clicked", .num 0),
         ("videos", match lookupObj body "videos" with
                    | some v => if truthy v then v else .arr []
                    | none => .arr [])])

/-- Route POST /api/ads: read all ads, push the new ad, save all ads,
respond 201 with the new ad.  Pushing onto a non-array value throws and
the catch block answers 500. -/
def postAdRoute (w : World) (nowId : String) (body : List (String × Value)) :
    Response × World :=
  match asArray (getAds w.file) with
  | .error _ => (err500, w)
  | .ok ads =>
    let newAd := mkNewAd nowId body
    let w2 := saveAds w (ads ++ [newAd])
    ({ status := 201, success := true, data := some newAd }, w2)

/-- The object spread merge of PUT /api/ads/:id: spreading the old ad
and then the request body.  Spreading a primitive old value contributes
no entries. -/
def mergeAd (old : Value) (body : List (String × Value)) : Value :=
  match old with
  | .obj o => .obj (o ++ body)
  | _ => .obj body

/-- Route PUT /api/ads/:id: read all ads, find the index of the ad whose
id equals the parameter, 404 when absent, otherwise replace that slot by
the merge of the old ad and the body, save all ads and respond 200 with
the merged ad. -/
def putAdRoute (w : World) (idParam : String) (body : List (String × Value)) :
    Response × World :=
  match asArray (getAds w.file) with
  | .error _ => (err500, w)
  | .ok ads =>
    match findIndexM (idMatches idParam) ads with
    | .error _ => (err500, w)
    | .ok none => (notFound, w)
    | .ok (some i) =>
      let updated := mergeAd (ads.getD i .null) body
      let w2 := saveAds w (ads.set i updated)
      ({ status := 200, success := true, data := some updated }, w2)

/-- Route DELETE /api/ads/:id: read all ads, keep those whose id differs
from the parameter, 404 when the length is unchanged (nothing matched),
otherwise save the remaining ads and respond 200. -/
def deleteAdRoute (w : World) (idParam : String) : Response × World :=
  match asArray (getAds w.file) with
  | .error _ => (err500, w)
  | .ok ads =>
    match filterM (notIdMatches idParam) ads with
    | .error _ => (err500, w)
    | .ok kept =>
      if kept.length = ads.length then (notFound, w)
      else
        let w2 := saveAds w kept
        ({ status := 200, success := true, data := none }, w2)

/-- The update of the clicked counter in PATCH /api/ads/:id/click: the
old clicked value (undefined when absent), defaulted to 0 when falsy,
plus 1 under JavaScript addition. -/
def clickInc (old : Option Value) : Value :=
  jsAdd (match old with
         | some v => if truthy v then v else .num 0
         | none => .num 0)
        (.num 1)

/-- Property assignment ad.clicked = v: on an object the new binding
shadows the old one; assignment to a primitive base is a silent no-op in
sloppy mode (the null base throws earlier, while reading the old
value). -/
def setClicked (ad : Value) (v : Value) : Value :=
  match ad with
  | .obj o => .obj (o ++ [("clicked", v)])
  | x => x

/-- The mutation step of the PATCH route on the matched ad: read the old
clicked property (throws on a null base) and assign the incremented
value. -/
def patchClickStep (ad : Value) : Except Unit Value := do
  let old ← getField ad "clicked"
  pure (setClicked ad (clickInc old))

/-- Route PATCH /api/ads/:id/click: read all ads, find the matching
index, 404 when absent, otherwise increment that ad's clicked counter,
save all ads and respond 200 with the updated ad. -/
def patchClickRoute (w : World) (idParam : String) : Response × World :=
  match asArray (getAds w.file) with
  | .error _ => (err500, w)
  | .ok ads =>
    match findIndexM (idMatches idParam) ads with
    | .error _ => (err500, w)
    | .ok none => (notFound, w)
    | .ok (some i) =>
      match patchClickStep (ads.getD i .null) with
      | .error _ => (err500, w)
      | .ok updated =>
        let w2 := saveAds w (ads.set i updated)
        ({ status := 200, success := true, data := some updated }, w2)

/-- The backend domain constant of the upload route. -/
def backendDomain : String := "https://ad-wall-back.vercel.app"

/-- The multipart field name accepted by the upload middleware. -/
def uploadField : String := "videos"

/-- The URL built for one uploaded file from the backend domain and the
stored filename. -/
def videoUrl (filename : String) : String :=
  backendDomain ++ "/uploads/" ++ filename

/-- The multer array middleware upload.array with a max count: a request
carrying more files than the limit is rejected before the handler
runs. -/
def multerAccepts (maxCount : Nat) (files : List String) : Bool :=
  files.length ≤ maxCount

/-- Route POST /api/upload/video: at most 3 files under the videos
field; on acceptance respond 200 with one URL per stored file, built
only from the domain and the filename (file contents are never
inspected).  A rejected request is answered by the default Express error
handler with status 500. -/
def uploadVideoRoute (files : List String) : Response :=
  if multerAccepts 3 files then
    { status := 200, success := true,
      data := some (.arr (files.map (fun f => Value.str (videoUrl f)))) }
  else
    err500

/-- Pure counterpart of the findIndex and filter predicates: whether a
stored value is an object whose id property is exactly the given
string. -/
def adHasId (param : String) (v : Value) : Bool :=
  match v with
  | .obj o => match lookupObj o "id" with
              | some (.str s) => s == param
              | _ => false
  | _ => false

/-- Pure counterpart of the findIndex call on a list of object ads. -/
def findIdxPure (param : String) : List Value → Option Nat
  | [] => none
  | v :: t => if adHasId param v then some 0 else (findIdxPure param t).map (· + 1)

/-! Bridge lemmas from the effectful route ingredients to their pure
counterparts, available whenever every stored element is an object
(which is all the ads file can hold after any write by saveAds of ads
built by the routes). -/

theorem lookupObj_foldl (k : String) (o : List (String × Value)) (i : Option Value) :
    o.foldl (fun acc p => if p.1 = k then some p.2 else acc) i =
      (match lookupObj o k with
       | some v => some v
       | none => i) := by
  induction o generalizing i with
  | nil => rfl
  | cons hd t ih =>
    show t.foldl _ (if hd.1 = k then some hd.2 else i) = _
    rw [ih]
    conv_rhs => rw [lookupObj, List.foldl_cons, ih]
    by_cases hk : hd.1 = k <;> cases h : lookupObj t k <;> simp [hk, h]

theorem lookupObj_append (k : String) (a b : List (String × Value)) :
    lookupObj (a ++ b) k =
      (match lookupObj b k with
       | some v => some v
       | none => lookupObj a k) := by
  show (a ++ b).foldl _ none = _
  rw [List.foldl_append, lookupObj_foldl]
  cases lookupObj b k <;> rfl

theorem idMatches_obj (param : String) (o : List (String × Value)) :
    idMatches param (.obj o) = .ok (adHasId param (.obj o)) := by
  simp [idMatches, getField, adHasId, Bind.bind, Except.bind, pure, Except.pure]

theorem notIdMatches_obj (param : String) (o : List (String × Value)) :
    notIdMatches param (.obj o) = .ok (!(adHasId param (.obj o))) := by
  simp only [notIdMatches, getField, adHasId, Bind.bind, Except.bind, pure, Except.pure]
  cases h : lookupObj o "id" with
  | none => rfl
  | some v => cases v <;> simp [bne]

theorem findIndexM_ok (param : String) (l : List Value)
    (h : l.all isObjV = true) :
    findIndexM (idMatches param) l = .ok (findIdxPure param l) := by
  induction l with
  | nil => rfl
  | cons hd t ih =>
    rw [List.all_cons, Bool.and_eq_true] at h
    obtain ⟨h1, h2⟩ := h
    cases hd with
    | obj o =>
      rw [findIndexM, idMatches_obj]
      show (if adHasId param (.obj o) then _ else _ : Except Unit _) = _
      by_cases hm : adHasId param (.obj o) = true
      · simp [hm, findIdxPure, Bind.bind, Except.bind, pure, Except.pure]
      · rw [Bool.not_eq_true] at hm
        simp [hm, findIdxPure, ih h2, Bind.bind, Except.bind, pure, Except.pure]
    | num n => exact absurd h1 (by simp [isObjV])
    | str s => exact absurd h1 (by simp [isObjV])
    | bool b => exact absurd h1 (by simp [isObjV])
    | null => exact absurd h1 (by simp [isObjV])
    | arr a => exact absurd h1 (by simp [isObjV])

theorem filterM_ok (param : String) (l : List Value)
    (h : l.all isObjV = true) :
    filterM (notIdMatches param) l = .ok (l.filter (fun v => !(adHasId param v))) := by
  induction l with
  | nil => rfl
  | cons hd t ih =>
    rw [List.all_cons, Bool.and_eq_true] at h
    obtain ⟨h1, h2⟩ := h
    cases hd with
    | obj o =>
      rw [filterM, notIdMatches_obj]
      by_cases hm : adHasId param (.obj o) = true <;>
        simp [Bind.bind, Except.bind, ih h2, pure, Except.pure, List.filter_cons, hm]
    | num n => exact absurd h1 (by simp [isObjV])
    | str s => exact absurd h1 (by simp [isObjV])
    | bool b => exact absurd h1 (by simp [isObjV])
    | null => exact absurd h1 (by simp [isObjV])
    | arr a => exact absurd h1 (by simp [isObjV])

theorem findIdxPure_none (param : String) (l : List Value) :
    findIdxPure param l = none ↔ ∀ v ∈ l, adHasId param v = false := by
  induction l with
  | nil => simp [findIdxPure]
  | cons hd t ih =>
    rw [findIdxPure]
    by_cases hm : adHasId param hd = true
    · simp [hm]
    · rw [Bool.not_eq_true] at hm
      simp [hm, ih]

theorem findIdxPure_some (param : String) (l : List Value) (i : Nat)
    (h : findIdxPure param l = some i) :
    i < l.length ∧ adHasId param (l.getD i .null) = true := by
  induction l generalizing i with
  | nil => simp [findIdxPure] at h
  | cons hd t ih =>
    rw [findIdxPure] at h
    by_cases hm : adHasId param hd = true
    · rw [if_pos hm] at h
      cases h
      simpa [List.getD] using hm
    · rw [if_neg hm] at h
      cases hj : findIdxPure param t with
      | none => rw [hj] at h; simp at h
      | some j =>
        rw [hj] at h
        cases h
        obtain ⟨hl, hv⟩ := ih j hj
        constructor
        · simpa using Nat.succ_lt_succ hl
        · simpa [List.getD] using hv

/-- Whether an optional property value is a number, absent, or falsy:
exactly the cases in which the JavaScript expression (v or-else 0) + 1
is integer arithmetic. -/
def numOrFalsy : Option Value → Bool
  | none => true
  | some (.num _) => true
  | some v => !truthy v

/-- The integer a numeric, absent or falsy clicked property denotes:
the number itself, or 0. -/
def countOf : Option Value → Int
  | some (.num n) => n
  | _ => 0

/-- Whether a value is a number. -/
def isNumV : Value → Bool
  | .num _ => true
  | _ => false

theorem clickInc_numOrFalsy (o : Option Value) (h : numOrFalsy o = true) :
    clickInc o = .num (countOf o + 1) := by
  cases o with
  | none => rfl
  | some v =>
    cases v with
    | num n =>
      by_cases hn : n = 0
      · subst hn; rfl
      · simp [clickInc, truthy, hn, jsAdd, toPrim, toNumPrim, countOf]
    | str s =>
      simp [numOrFalsy, truthy] at h
      subst h; rfl
    | bool b =>
      simp [numOrFalsy, truthy] at h
      subst h; rfl
    | null => rfl
    | arr a => simp [numOrFalsy, truthy] at h
    | obj o => simp [numOrFalsy, truthy] at h

theorem adHasId_isObj (p : String) (v : Value) (h : adHasId p v = true) :
    ∃ o, v = .obj o := by
  cases v with
  | obj o => exact ⟨o, rfl⟩
  | num n => simp [adHasId] at h
  | str s => simp [adHasId] at h
  | bool b => simp [adHasId] at h
  | null => simp [adHasId] at h
  | arr a => simp [adHasId] at h

theorem all_getD {q : Value → Bool} (l : List Value) (i : Nat) (d : Value)
    (h : l.all q = true) (hi : i < l.length) : q (l.getD i d) = true := by
  rw [List.all_eq_true] at h
  rw [List.getD_eq_getElem l d hi]
  exact h _ (List.getElem_mem hi)

theorem patchClickStep_obj (o : List (String × Value)) :
    patchClickStep (.obj o) =
      .ok (.obj (o ++ [("clicked", clickInc (lookupObj o "clicked"))])) := rfl

/-- vLookup across an appended suffix of fresh bindings: a key bound in
the suffix reads from the suffix, any other key reads the base
object. -/
theorem vLookup_obj_append (o b : List (String × Value)) (k : String) :
    vLookup (.obj (o ++ b)) k =
      (match lookupObj b k with
       | some v => some v
       | none => lookupObj o k) := by
  show lookupObj (o ++ b) k = _
  exact lookupObj_append k o b

/-! Characterizations of the four ads routes on a file whose parsed
content is a list of object records, in terms of the pure counterparts
of findIndex and filter. -/

theorem postAdRoute_eq (w : World) (nowId : String) (body : List (String × Value))
    (l : List Value) (hf : getAds w.file = .arr l) :
    postAdRoute w nowId body =
      ({ status := 201, success := true, data := some (mkNewAd nowId body) },
       saveAds w (l ++ [mkNewAd nowId body])) := by
  unfold postAdRoute
  rw [hf]
  rfl

theorem putAdRoute_eq (w : World) (p : String) (body : List (String × Value))
    (l : List Value) (hf : getAds w.file = .arr l) (ho : l.all isObjV = true) :
    putAdRoute w p body =
      match findIdxPure p l with
      | none => (notFound, w)
      | some i =>
        ({ status := 200, success := true,
           data := some (mergeAd (l.getD i .null) body) },
         saveAds w (l.set i (mergeAd (l.getD i .null) body))) := by
  have hidx := findIndexM_ok p l ho
  unfold putAdRoute
  rw [hf]
  cases hx : findIdxPure p l with
  | none => rw [hx] at hidx; simp [asArray, hidx]
  | some i => rw [hx] at hidx; simp [asArray, hidx]

theorem deleteAdRoute_eq (w : World) (p : String)
    (l : List Value) (hf : getAds w.file = .arr l) (ho : l.all isObjV = true) :
    deleteAdRoute w p =
      (if (l.filter (fun v => !(adHasId p v))).length = l.length then (notFound, w)
       else ({ status := 200, success := true, data := none },
             saveAds w (l.filter (fun v => !(adHasId p v))))) := by
  have hk := filterM_ok p l ho
  unfold deleteAdRoute
  rw [hf]
  simp [asArray, hk]

theorem patchClickRoute_eq (w : World) (p : String)
    (l : List Value) (hf : getAds w.file = .arr l) (ho : l.all isObjV = true) :
    patchClickRoute w p =
      match findIdxPure p l with
      | none => (notFound, w)
      | some i =>
        match patchClickStep (l.getD i .null) with
        | .error _ => (err500, w)
        | .ok u =>
          ({ status := 200, success := true, data := some u },
           saveAds w (l.set i u)) := by
  have hidx := findIndexM_ok p l ho
  unfold patchClickRoute
  rw [hf]
  cases hx : findIdxPure p l with
  | none => rw [hx] at hidx; simp [asArray, hidx]
  | some i =>
    rw [hx] at hidx
    simp [asArray, hidx]

/-! Claim theorems. -/

/-- C1: every mutating ad operation (create, update, delete,
click-increment) follows the read-modify-write helper pair: it loads the
whole list through getAds, mutates it in memory, and the only way the
ads file ever changes is a full overwrite with the serialization of the
entire mutated list; on every other path (404, a thrown exception, a
failed write) the file is left exactly as it was — never an append or a
partial write. -/
theorem spec_c1_read_modify_write (w : World) (nowId idParam : String)
    (body : List (String × Value)) :
    ((postAdRoute w nowId body).2 = w ∨
      (∃ l, asArray (getAds w.file) = .ok l ∧
        (postAdRoute w nowId body).2.file =
          .content (.arr (l ++ [mkNewAd nowId body])))) ∧
    ((putAdRoute w idParam body).2 = w ∨
      (∃ l i, asArray (getAds w.file) = .ok l ∧
        findIndexM (idMatches idParam) l = .ok (some i) ∧
        (putAdRoute w idParam body).2.file =
          .content (.arr (l.set i (mergeAd (l.getD i .null) body))))) ∧
    ((deleteAdRoute w idParam).2 = w ∨
      (∃ l kept, asArray (getAds w.file) = .ok l ∧
        filterM (notIdMatches idParam) l = .ok kept ∧
        (deleteAdRoute w idParam).2.file = .content (.arr kept))) ∧
    ((patchClickRoute w idParam).2 = w ∨
      (∃ l i u, asArray (getAds w.file) = .ok l ∧
        findIndexM (idMatches idParam) l = .ok (some i) ∧
        patchClickStep (l.getD i .null) = .ok u ∧
        (patchClickRoute w idParam).2.file = .content (.arr (l.set i u)))) := by
  refine ⟨?_, ?_, ?_, ?_⟩
  · unfold postAdRoute
    cases ha : asArray (getAds w.file) with
    | error e => exact Or.inl rfl
    | ok l =>
      by_cases hw : w.writeFails = true
      · exact Or.inl (by simp [saveAds, hw])
      · exact Or.inr ⟨l, rfl, by simp [saveAds, hw]⟩
  · unfold putAdRoute
    cases ha : asArray (getAds w.file) with
    | error e => exact Or.inl rfl
    | ok l =>
      dsimp only
      cases hi : findIndexM (idMatches idParam) l with
      | error e => exact Or.inl rfl
      | ok oi =>
        cases oi with
        | none => exact Or.inl rfl
        | some i =>
          by_cases hw : w.writeFails = true
          · exact Or.inl (by simp [saveAds, hw])
          · exact Or.inr ⟨l, i, rfl, hi, by simp [saveAds, hw]⟩
  · unfold deleteAdRoute
    cases ha : asArray (getAds w.file) with
    | error e => exact Or.inl rfl
    | ok l =>
      dsimp only
      cases hk : filterM (notIdMatches idParam) l with
      | error e => exact Or.inl rfl
      | ok kept =>
        by_cases hlen : kept.length = l.length
        · exact Or.inl (by simp [hlen])
        · by_cases hw : w.writeFails = true
          · exact Or.inl (by simp [hlen, saveAds, hw])
          · exact Or.inr ⟨l, kept, rfl, hk, by simp [hlen, saveAds, hw]⟩
  · unfold patchClickRoute
    cases ha : asArray (getAds w.file) with
    | error e => exact Or.inl rfl
    | ok l =>
      dsimp only
      cases hi : findIndexM (idMatches idParam) l with
      | error e => exact Or.inl rfl
      | ok oi =>
        cases oi with
        | none => exact Or.inl rfl
        | some i =>
          dsimp only
          cases hu : patchClickStep (l.getD i .null) with
          | error e => exact Or.inl rfl
          | ok u =>
            by_cases hw : w.writeFails = true
            · exact Or.inl (by simp [saveAds, hw])
            · exact Or.inr ⟨l, i, u, rfl, hi, hu, by simp [saveAds, hw]⟩

/-- C5: POST /api/ads appends exactly one new ad at the end of the list,
responds 201 carrying that ad, keeps every previously stored ad
unchanged, and a subsequent GET /api/ads returns the old list with the
new ad appended. -/
theorem spec_c5_post_appends (w : World) (nowId : String)
    (body : List (String × Value)) (l : List Value)
    (hf : getAds w.file = .arr l) (hw : w.writeFails = false) :
    (postAdRoute w nowId body).1.status = 201 ∧
    (postAdRoute w nowId body).1.success = true ∧
    (postAdRoute w nowId body).1.data = some (mkNewAd nowId body) ∧
    getAds (postAdRoute w nowId body).2.file = .arr (l ++ [mkNewAd nowId body]) ∧
    (listAdsRoute (postAdRoute w nowId body).2).1.data =
      some (.arr (l ++ [mkNewAd nowId body])) := by
  rw [postAdRoute_eq w nowId body l hf]
  simp [saveAds, hw, listAdsRoute, getAds]

/-- Witness for C5: creating an ad on a world holding one stored ad. -/
theorem spec_c5_post_appends_witness :
    getAds (postAdRoute ⟨.content (.arr [.obj [("id", .str "1")]]), false⟩
        "7" [("title", .str "v")]).2.file =
      .arr ([.obj [("id", .str "1")]] ++ [mkNewAd "7" [("title", .str "v")]]) :=
  (spec_c5_post_appends ⟨.content (.arr [.obj [("id", .str "1")]]), false⟩
    "7" [("title", .str "v")] [.obj [("id", .str "1")]] rfl rfl).2.2.2.1

/-- C6: DELETE /api/ads/:id responds 404 exactly when no stored ad has
the given id, and in that case nothing is persisted and the state is
unchanged; otherwise every ad whose id equals the parameter is removed
and the remaining ads are persisted. -/
theorem spec_c6_delete_atomic (w : World) (p : String) (l : List Value)
    (hf : getAds w.file = .arr l) (ho : l.all isObjV = true) :
    ((deleteAdRoute w p).1.status = 404 ↔ ∀ v ∈ l, adHasId p v = false) ∧
    ((∀ v ∈ l, adHasId p v = false) → (deleteAdRoute w p).2 = w) ∧
    ((∃ v ∈ l, adHasId p v = true) →
      (deleteAdRoute w p).1.status = 200 ∧
      (w.writeFails = false →
        getAds (deleteAdRoute w p).2.file =
          .arr (l.filter (fun v => !(adHasId p v))))) := by
  have hiff : ((l.filter (fun v => !(adHasId p v))).length = l.length) ↔
      (∀ v ∈ l, adHasId p v = false) := by
    rw [List.filter_length_eq_length]
    constructor
    · intro h v hv
      have := h v hv
      simpa using this
    · intro h v hv
      simp [h v hv]
  rw [deleteAdRoute_eq w p l hf ho]
  by_cases hlen : (l.filter (fun v => !(adHasId p v))).length = l.length
  · refine ⟨by rw [if_pos hlen]; exact ⟨fun _ => hiff.mp hlen, fun _ => rfl⟩,
      by rw [if_pos hlen]; exact fun _ => rfl, ?_⟩
    rintro ⟨v, hv, hvt⟩
    have := hiff.mp hlen v hv
    rw [this] at hvt
    cases hvt
  · refine ⟨?_, ?_, ?_⟩
    · simp only [if_neg hlen]
      constructor
      · intro h; simp at h
      · intro hall; exact absurd (hiff.mpr hall) hlen
    · intro hall; exact absurd (hiff.mpr hall) hlen
    · intro _
      rw [if_neg hlen]
      refine ⟨rfl, fun hw => ?_⟩
      simp [saveAds, hw, getAds]

/-- Witness for C6: deleting an existing ad and missing an absent id. -/
theorem spec_c6_delete_atomic_witness :
    ((deleteAdRoute ⟨.content (.arr [.obj [("id", .str "1")]]), false⟩ "2").1.status = 404 ↔
      ∀ v ∈ [Value.obj [("id", .str "1")]], adHasId "2" v = false) ∧
    ((deleteAdRoute ⟨.content (.arr [.obj [("id", .str "1")]]), false⟩ "1").1.status = 404 ↔
      ∀ v ∈ [Value.obj [("id", .str "1")]], adHasId "1" v = false) :=
  ⟨(spec_c6_delete_atomic ⟨.content (.arr [.obj [("id", .str "1")]]), false⟩ "2"
      [.obj [("id", .str "1")]] rfl rfl).1,
   (spec_c6_delete_atomic ⟨.content (.arr [.obj [("id", .str "1")]]), false⟩ "1"
      [.obj [("id", .str "1")]] rfl rfl).1⟩

/-- C7: the video upload route accepts at most 3 files per request under
the multipart field named videos; an accepted request is answered with
exactly one URL per stored file, each the backend domain followed by the
uploads path and the stored filename, and nothing else of the files is
consulted; a request with more than 3 files is rejected with the
default error response. -/
theorem spec_c7_upload (files : List String) :
    uploadField = "videos" ∧
    (files.length ≤ 3 →
      (uploadVideoRoute files).status = 200 ∧
      (uploadVideoRoute files).success = true ∧
      (uploadVideoRoute files).data =
        some (.arr (files.map (fun f => Value.str (videoUrl f)))) ∧
      (files.map (fun f => Value.str (videoUrl f))).length = files.length) ∧
    (3 < files.length → uploadVideoRoute files = err500) := by
  refine ⟨rfl, ?_, ?_⟩
  · intro h
    simp [uploadVideoRoute, multerAccepts, h]
  · intro h
    have : ¬ files.length ≤ 3 := by omega
    simp [uploadVideoRoute, multerAccepts, this]

/-- Witness for C7: two files are accepted with one URL each; four files
are rejected. -/
theorem spec_c7_upload_witness :
    (uploadVideoRoute ["a.mp4", "b.mp4"]).data =
      some (.arr [Value.str (videoUrl "a.mp4"), Value.str (videoUrl "b.mp4")]) ∧
    uploadVideoRoute ["a", "b", "c", "d"] = err500 :=
  ⟨((spec_c7_upload ["a.mp4", "b.mp4"]).2.1 (by decide)).2.2.1,
   (spec_c7_upload ["a", "b", "c", "d"]).2.2 (by decide)⟩

/-- C9: on PUT /api/ads/:id with a matching id, fields of the stored ad
that are absent from the request body keep their previous values, and
every stored ad other than the matched one is left completely
unchanged. -/
theorem spec_c9_put_preserves (w : World) (p : String)
    (body : List (String × Value)) (l : List Value) (i : Nat)
    (hf : getAds w.file = .arr l) (ho : l.all isObjV = true)
    (hi : findIdxPure p l = some i) :
    (putAdRoute w p body).1.status = 200 ∧
    (putAdRoute w p body).1.data = some (mergeAd (l.getD i .null) body) ∧
    (∀ k, lookupObj body k = none →
      vLookup (mergeAd (l.getD i .null) body) k = vLookup (l.getD i .null) k) ∧
    (∀ j, j < l.length → ¬ j = i →
      (l.set i (mergeAd (l.getD i .null) body)).getD j .null = l.getD j .null) ∧
    (w.writeFails = false →
      getAds (putAdRoute w p body).2.file =
        .arr (l.set i (mergeAd (l.getD i .null) body))) := by
  have hroute := putAdRoute_eq w p body l hf ho
  rw [hi] at hroute
  obtain ⟨hlt, hhas⟩ := findIdxPure_some p l i hi
  obtain ⟨o, hoeq⟩ := adHasId_isObj p _ hhas
  refine ⟨by rw [hroute], by rw [hroute], ?_, ?_, ?_⟩
  · intro k hk
    rw [hoeq]
    show vLookup (.obj (o ++ body)) k = _
    rw [vLookup_obj_append, hk]
    rfl
  · intro j hj hne
    simp [List.getD, List.getElem?_set_ne (fun h => hne h.symm)]
  · intro hw
    rw [hroute]
    simp [saveAds, hw, getAds]

/-- Witness for C9: a PUT body without the title field keeps the stored
title. -/
theorem spec_c9_put_preserves_witness :
    vLookup (mergeAd ([Value.obj [("id", Value.str "1"), ("title", Value.str "x")]].getD 0 .null)
        [("desc", Value.str "y")]) "title" =
      vLookup ([Value.obj [("id", Value.str "1"), ("title", Value.str "x")]].getD 0 .null) "title" :=
  ((spec_c9_put_preserves
      ⟨.content (.arr [.obj [("id", .str "1"), ("title", .str "x")]]), false⟩
      "1" [("desc", .str "y")]
      [.obj [("id", .str "1"), ("title", .str "x")]] 0 rfl rfl rfl).2.2.1 "title" rfl)

/-- Counterexample to C3: a PUT whose body lacks the title field leaves
the stored title in place in the returned (and stored) record, so the
record is merged with the body, not replaced wholesale by it. -/
theorem spec_c3_counterexample :
    (putAdRoute ⟨.content (.arr [.obj [("id", .str "1"), ("title", .str "x")]]), false⟩
        "1" [("desc", .str "y")]).1.status = 200 ∧
    vLookup (((putAdRoute ⟨.content (.arr [.obj [("id", .str "1"), ("title", .str "x")]]), false⟩
        "1" [("desc", .str "y")]).1.data).getD .null) "title" = some (.str "x") ∧
    lookupObj [("desc", Value.str "y")] "title" = none ∧
    vLookup (((putAdRoute ⟨.content (.arr [.obj [("id", .str "1"), ("title", .str "x")]]), false⟩
        "1" [("desc", .str "y")]).1.data).getD .null) "desc" = some (.str "y") :=
  ⟨rfl, rfl, rfl, rfl⟩

/-- C3 amended: PUT /api/ads/:id on a matching id replaces the stored
record by the spread merge of the existing record and the request body:
fields present in the body take the body value and every other stored
field keeps its previous value, rather than the record being replaced
wholesale by the body. -/
theorem spec_c3_amended_merge (w : World) (p : String)
    (body : List (String × Value)) (l : List Value) (i : Nat)
    (hf : getAds w.file = .arr l) (ho : l.all isObjV = true)
    (hi : findIdxPure p l = some i) :
    (putAdRoute w p body).1.data = some (mergeAd (l.getD i .null) body) ∧
    (∀ k, vLookup (mergeAd (l.getD i .null) body) k =
      (match lookupObj body k with
       | some v => some v
       | none => vLookup (l.getD i .null) k)) ∧
    (w.writeFails = false →
      getAds (putAdRoute w p body).2.file =
        .arr (l.set i (mergeAd (l.getD i .null) body))) := by
  have hroute := putAdRoute_eq w p body l hf ho
  rw [hi] at hroute
  obtain ⟨hlt, hhas⟩ := findIdxPure_some p l i hi
  obtain ⟨o, hoeq⟩ := adHasId_isObj p _ hhas
  refine ⟨by rw [hroute], ?_, ?_⟩
  · intro k
    rw [hoeq]
    show vLookup (.obj (o ++ body)) k = _
    rw [vLookup_obj_append]
    cases lookupObj body k <;> rfl
  · intro hw
    rw [hroute]
    simp [saveAds, hw, getAds]

/-- Witness for the amended C3: the merge takes the body value for a
field present in the body. -/
theorem spec_c3_amended_merge_witness :
    vLookup (mergeAd ([Value.obj [("id", Value.str "1"), ("title", Value.str "x")]].getD 0 .null)
        [("title", Value.str "z")]) "title" =
      (match lookupObj [("title", Value.str "z")] "title" with
       | some v => some v
       | none => vLookup ([Value.obj [("id", Value.str "1"),
           ("title", Value.str "x")]].getD 0 .null) "title") :=
  ((spec_c3_amended_merge
      ⟨.content (.arr [.obj [("id", .str "1"), ("title", .str "x")]]), false⟩
      "1" [("title", .str "z")]
      [.obj [("id", .str "1"), ("title", .str "x")]] 0 rfl rfl rfl).2.1 "title")

theorem mkNewAd_clicked (nowId : String) (body : List (String × Value)) :
    vLookup (mkNewAd nowId body) "clicked" = some (.num 0) := by
  show lookupObj ([("id", Value.str nowId)] ++ (body ++ _)) "clicked" = _
  rw [lookupObj_append, lookupObj_append]
  rfl

theorem mkNewAd_videos (nowId : String) (body : List (String × Value)) :
    vLookup (mkNewAd nowId body) "videos" =
      some (match lookupObj body "videos" with
            | some v => if truthy v then v else .arr []
            | none => .arr []) := by
  show lookupObj ([("id", Value.str nowId)] ++ (body ++ _)) "videos" = _
  rw [lookupObj_append, lookupObj_append]
  rfl

/-- Counterexample to C8: a POST body whose videos field is the truthy
non-array number 5 is stored and returned with videos equal to 5, not to
an array (the clicked half of the claim does hold). -/
theorem spec_c8_counterexample :
    (postAdRoute ⟨.content (.arr []), false⟩ "9" [("videos", .num 5)]).1.status = 201 ∧
    (postAdRoute ⟨.content (.arr []), false⟩ "9" [("videos", .num 5)]).1.data =
      some (mkNewAd "9" [("videos", .num 5)]) ∧
    vLookup (mkNewAd "9" [("videos", .num 5)]) "videos" = some (.num 5) ∧
    isArrV ((vLookup (mkNewAd "9" [("videos", .num 5)]) "videos").getD .null) = false ∧
    getAds (postAdRoute ⟨.content (.arr []), false⟩ "9" [("videos", .num 5)]).2.file =
      .arr [mkNewAd "9" [("videos", .num 5)]] :=
  ⟨rfl, rfl, rfl, rfl, rfl⟩

/-- C8 amended: the ad stored and returned by POST /api/ads always has
clicked equal to 0, whatever the body contains; its videos field is the
body videos value whenever that value is truthy — of whatever type — and
the empty array when it is absent or falsy. -/
theorem spec_c8_amended_defaults (w : World) (nowId : String)
    (body : List (String × Value)) (l : List Value)
    (hf : getAds w.file = .arr l) :
    vLookup (mkNewAd nowId body) "clicked" = some (.num 0) ∧
    vLookup (mkNewAd nowId body) "videos" =
      some (match lookupObj body "videos" with
            | some v => if truthy v then v else .arr []
            | none => .arr []) ∧
    (postAdRoute w nowId body).1.data = some (mkNewAd nowId body) ∧
    (w.writeFails = false →
      getAds (postAdRoute w nowId body).2.file = .arr (l ++ [mkNewAd nowId body])) := by
  have hroute := postAdRoute_eq w nowId body l hf
  refine ⟨mkNewAd_clicked nowId body, mkNewAd_videos nowId body, by rw [hroute], ?_⟩
  intro hw
  rw [hroute]
  simp [saveAds, hw, getAds]

/-- Witness for the amended C8: a body that tries to set clicked still
gets clicked 0. -/
theorem spec_c8_amended_defaults_witness :
    vLookup (mkNewAd "9" [("clicked", Value.num 7)]) "clicked" = some (.num 0) :=
  (spec_c8_amended_defaults ⟨.content (.arr []), false⟩ "9"
    [("clicked", Value.num 7)] [] rfl).1

theorem lookupObj_single (a : String) (v : Value) (k : String) :
    lookupObj [(a, v)] k = if a = k then some v else none := rfl

/-- Counterexample to C4: on a stored ad whose clicked value is the
truthy non-number string x, the click route applies JavaScript addition,
which concatenates: the stored and returned clicked value becomes the
string x1, not a number incremented by 1. -/
theorem spec_c4_counterexample :
    (patchClickRoute ⟨.content (.arr [.obj [("id", .str "1"), ("clicked", .str "x")]]), false⟩
        "1").1.status = 200 ∧
    vLookup (((patchClickRoute
        ⟨.content (.arr [.obj [("id", .str "1"), ("clicked", .str "x")]]), false⟩
        "1").1.data).getD .null) "clicked" = some (.str "x1") ∧
    isNumV ((vLookup (((patchClickRoute
        ⟨.content (.arr [.obj [("id", .str "1"), ("clicked", .str "x")]]), false⟩
        "1").1.data).getD .null) "clicked").getD .null) = false :=
  ⟨rfl, rfl, rfl⟩

/-- C4 amended: PATCH /api/ads/:id/click responds 404 exactly when no
stored ad has the given id, and then leaves the state unchanged; on a
match it updates exactly the matched ad and returns it, and whenever the
stored clicked value is a number, missing, or falsy, the counter becomes
that number (0 when missing or falsy) plus exactly 1.  A truthy
non-numeric clicked value instead undergoes JavaScript addition (for a
string, concatenation). -/
theorem spec_c4_amended_click (w : World) (p : String) (l : List Value)
    (hf : getAds w.file = .arr l) (ho : l.all isObjV = true) :
    ((patchClickRoute w p).1.status = 404 ↔ ∀ v ∈ l, adHasId p v = false) ∧
    ((∀ v ∈ l, adHasId p v = false) → (patchClickRoute w p).2 = w) ∧
    (∀ i, findIdxPure p l = some i →
      ∃ u, (patchClickRoute w p).1.status = 200 ∧
        (patchClickRoute w p).1.data = some u ∧
        (numOrFalsy (vLookup (l.getD i .null) "clicked") = true →
          vLookup u "clicked" =
            some (.num (countOf (vLookup (l.getD i .null) "clicked") + 1))) ∧
        (∀ k, ¬ k = "clicked" → vLookup u k = vLookup (l.getD i .null) k) ∧
        (∀ j, j < l.length → ¬ j = i → (l.set i u).getD j .null = l.getD j .null) ∧
        (w.writeFails = false →
          getAds (patchClickRoute w p).2.file = .arr (l.set i u))) := by
  have hroute := patchClickRoute_eq w p l hf ho
  cases hx : findIdxPure p l with
  | none =>
    rw [hx] at hroute
    refine ⟨?_, ?_, ?_⟩
    · rw [hroute]
      exact ⟨fun _ => (findIdxPure_none p l).mp hx, fun _ => rfl⟩
    · intro _
      rw [hroute]
    · intro i hii
      simp at hii
  | some i0 =>
    rw [hx] at hroute
    dsimp only at hroute
    obtain ⟨hlt, hhas⟩ := findIdxPure_some p l i0 hx
    obtain ⟨o, hoeq⟩ := adHasId_isObj p _ hhas
    rw [hoeq, patchClickStep_obj] at hroute
    refine ⟨?_, ?_, ?_⟩
    · rw [hroute]
      constructor
      · intro h
        simp at h
      · intro hall
        have hn := (findIdxPure_none p l).mpr hall
        rw [hx] at hn
        simp at hn
    · intro hall
      have hn := (findIdxPure_none p l).mpr hall
      rw [hx] at hn
      simp at hn
    · intro i hii
      have hii' : i0 = i := by simpa using hii
      subst hii'
      refine ⟨.obj (o ++ [("clicked", clickInc (lookupObj o "clicked"))]),
        by rw [hroute], by rw [hroute], ?_, ?_, ?_, ?_⟩
      · intro hnf
        rw [hoeq] at hnf ⊢
        have h1 : vLookup (Value.obj (o ++ [("clicked", clickInc (lookupObj o "clicked"))]))
            "clicked" = some (clickInc (lookupObj o "clicked")) := by
          rw [vLookup_obj_append]
          rfl
        rw [h1]
        have h2 : vLookup (Value.obj o) "clicked" = lookupObj o "clicked" := rfl
        rw [h2] at hnf ⊢
        rw [clickInc_numOrFalsy _ hnf]
      · intro k hk
        rw [hoeq]
        have h1 : vLookup (Value.obj (o ++ [("clicked", clickInc (lookupObj o "clicked"))])) k =
            (match lookupObj [("clicked", clickInc (lookupObj o "clicked"))] k with
             | some v => some v
             | none => lookupObj o k) := vLookup_obj_append _ _ _
        rw [h1, lookupObj_single, if_neg (fun h => hk h.symm)]
        rfl
      · intro j hj hne
        simp [List.getD, List.getElem?_set_ne (fun h => hne h.symm)]
      · intro hw
        rw [hroute]
        simp [saveAds, hw, getAds]

/-- Witness for the amended C4: a numeric clicked counter 4 becomes 5,
and a missing id gives 404. -/
theorem spec_c4_amended_click_witness :
    ((patchClickRoute ⟨.content (.arr [.obj [("id", .str "1"), ("clicked", .num 4)]]), false⟩
        "2").1.status = 404 ↔
      ∀ v ∈ [Value.obj [("id", .str "1"), ("clicked", .num 4)]], adHasId "2" v = false) ∧
    ((patchClickRoute ⟨.content (.arr [.obj [("id", .str "1"), ("clicked", .num 4)]]), false⟩
        "1").1.status = 404 ↔
      ∀ v ∈ [Value.obj [("id", .str "1"), ("clicked", .num 4)]], adHasId "1" v = false) :=
  ⟨(spec_c4_amended_click ⟨.content (.arr [.obj [("id", .str "1"), ("clicked", .num 4)]]), false⟩
      "2" [.obj [("id", .str "1"), ("clicked", .num 4)]] rfl rfl).1,
   (spec_c4_amended_click ⟨.content (.arr [.obj [("id", .str "1"), ("clicked", .num 4)]]), false⟩
      "1" [.obj [("id", .str "1"), ("clicked", .num 4)]] rfl rfl).1⟩

/-- Counterexample to C2: a read failure (unparseable ads file) is not
turned into an HTTP 500 — GET /api/ads answers 200 with success true —
and a persist failure is not turned into one either: POST /api/ads over
a failing write still answers 201 with success true while the file keeps
its old content. -/
theorem spec_c2_counterexample :
    (listAdsRoute ⟨.corrupt, false⟩).1.status = 200 ∧
    (listAdsRoute ⟨.corrupt, false⟩).1.success = true ∧
    (listAdsRoute ⟨.corrupt, false⟩).1.data = some (.arr []) ∧
    (postAdRoute ⟨.content (.arr []), true⟩ "1" []).1.status = 201 ∧
    (postAdRoute ⟨.content (.arr []), true⟩ "1" []).1.success = true ∧
    (postAdRoute ⟨.content (.arr []), true⟩ "1" []).2.file = .content (.arr []) :=
  ⟨rfl, rfl, rfl, rfl, rfl, rfl⟩

/-- C2 amended: an exception that reaches a route handler body does
yield HTTP 500 with the state unchanged; but a failure to read the ads
data is swallowed by getAds, which turns it into the empty list and a
success response, and a failure to persist is swallowed by saveAds, so
the request is still answered with a success status. -/
theorem spec_c2_amended_errors (w : World) (nowId idParam : String)
    (body : List (String × Value)) :
    ((listAdsRoute w).1.status = 200 ∧ (listAdsRoute w).1.success = true) ∧
    (w.file = .missing ∨ w.file = .empty ∨ w.file = .corrupt →
      (listAdsRoute w).1.data = some (.arr [])) ∧
    (∀ l, getAds w.file = .arr l → w.writeFails = true →
      (postAdRoute w nowId body).1.status = 201 ∧
      (postAdRoute w nowId body).1.success = true ∧
      (postAdRoute w nowId body).2 = w) ∧
    (asArray (getAds w.file) = .error () →
      postAdRoute w nowId body = (err500, w) ∧
      putAdRoute w idParam body = (err500, w) ∧
      deleteAdRoute w idParam = (err500, w) ∧
      patchClickRoute w idParam = (err500, w)) := by
  refine ⟨⟨rfl, rfl⟩, ?_, ?_, ?_⟩
  · rintro (h | h | h) <;> rw [listAdsRoute] <;> rw [h] <;> rfl
  · intro l hl hw
    rw [postAdRoute_eq w nowId body l hl]
    refine ⟨rfl, rfl, ?_⟩
    simp [saveAds, hw]
  · intro ha
    refine ⟨?_, ?_, ?_, ?_⟩
    · unfold postAdRoute
      rw [ha]
    · unfold putAdRoute
      rw [ha]
    · unfold deleteAdRoute
      rw [ha]
    · unfold patchClickRoute
      rw [ha]

/-- Witness for the amended C2: a missing file lists as empty, a failed
write still answers the POST while leaving the world unchanged, and a
non-array ads file makes PATCH answer 500. -/
theorem spec_c2_amended_errors_witness :
    (listAdsRoute ⟨.missing, false⟩).1.data = some (.arr []) ∧
    (postAdRoute ⟨.content (.arr []), true⟩ "1" []).2 = ⟨.content (.arr []), true⟩ ∧
    patchClickRoute ⟨.content (.num 3), false⟩ "1" = (err500, ⟨.content (.num 3), false⟩) :=
  ⟨(spec_c2_amended_errors ⟨.missing, false⟩ "1" "1" []).2.1 (Or.inl rfl),
   ((spec_c2_amended_errors ⟨.content (.arr []), true⟩ "1" "1" []).2.2.1 [] rfl rfl).2.2,
   ((spec_c2_amended_errors ⟨.content (.num 3), false⟩ "1" "1" []).2.2.2 rfl).2.2.2⟩

/-- Counterexample to C10: on a file whose text is valid JSON but not an
array (here the number 5), getAds returns the parsed non-array value
unchanged instead of an array. -/
theorem spec_c10_counterexample :
    getAds (.content (.num 5)) = .num 5 ∧
    isArrV (getAds (.content (.num 5))) = false :=
  ⟨rfl, rfl⟩

/-- C10 amended: getAds never throws (it is a total function of the file
state): a missing, empty, or unparseable ads file yields the empty
array, and a parseable file yields its parsed JSON value as is — which
is an array whenever the file was last written by saveAds, but need not
be one for arbitrary file content. -/
theorem spec_c10_amended_getAds (w : World) (l : List Value) (v : Value) :
    getAds .missing = .arr [] ∧
    getAds .empty = .arr [] ∧
    getAds .corrupt = .arr [] ∧
    getAds (.content v) = v ∧
    (w.writeFails = false → getAds (saveAds w l).file = .arr l) := by
  refine ⟨rfl, rfl, rfl, rfl, ?_⟩
  intro hw
  simp [saveAds, hw, getAds]

/-- Witness for the amended C10: a concrete round-trip through
saveAds. -/
theorem spec_c10_amended_getAds_witness :
    getAds (saveAds ⟨.corrupt, false⟩ [.obj [("id", .str "1")]]).file =
      .arr [.obj [("id", .str "1")]] :=
  (spec_c10_amended_getAds ⟨.corrupt, false⟩ [.obj [("id", .str "1")]] .null).2.2.2.2 rfl

end AdWall
